import Mathlib

/-!
# Shallow embedding of the goal-evaluator edge function

This file embeds `supabase/functions/goal-evaluator/index.ts` in Lean:
the sequence- and count-rule evaluators, the evaluation orchestrator
(`evaluateAllGoals`) and the what-if simulator (`simulateWhatIf`).

Modelling conventions:
* Timestamps (`occurred_at`, `now`, window bounds) are integers counting
  milliseconds since the epoch, mirroring `Date.getTime()`; the ISO-string
  round-trips in the source are monotone bijections and are dropped.
* JS falsy-fallbacks (`x || y` on numbers) are embedded as
  `if x ≠ 0 then x else y`; on option-typed fields (`x || null`) they are the
  identity on `Option`.
* The fractional thresholds `0.7 * required` and `0.3 * required` of the count
  evaluator are embedded as exact rational comparisons
  (`7 * required ≤ 10 * count`); for natural-number inputs the JS double
  computation rounds to the same comparisons.
* `Array.prototype.sort` (stable since ES2019) with the numeric
  `occurred_at` comparator is embedded as `List.insertionSort`, a stable sort.
* The `as SequenceConfig` / `as CountConfig` casts are embedded by passing the
  typed configuration alongside the rule; the orchestrator's dispatch
  guarantees the tag matches.
* Database tables are lists inside `DBState`; the two inserts append.
-/

namespace GoalEval

def hourMs : Int := 3600000

def dayMs : Int := 86400000

/-- `NormalizedEvent` (index.ts lines 10-20); `magnitude`, `metadata`,
`source_type`, `source_id` are never read by the evaluator and are omitted. -/
structure NormalizedEvent where
  id : String
  event_type : String
  event_name : String
  occurred_at : Int
  confidence : Rat
  deriving Repr, DecidableEq

/-- One `{name, type?}` entry of a sequence/count pattern. -/
structure EventPattern where
  name : String
  type : Option String := none
  deriving Repr, DecidableEq

/-- `SequenceConfig` (index.ts lines 33-37). -/
structure SequenceConfig where
  events : List EventPattern
  min_hours : Int
  max_hours : Int
  deriving Repr, DecidableEq

/-- `CountConfig` (index.ts lines 39-43); a zero in `required_count` or
`rolling_days` models a missing/zero (JS-falsy) field. -/
structure CountConfig where
  event_pattern : EventPattern
  required_count : Nat := 0
  rolling_days : Nat := 0
  deriving Repr, DecidableEq

/-- The `rule_type`/`rule_config` duck-typed union as a tagged variant.
`gate` and `compound` configs carry no data the evaluator ever reads. -/
inductive RuleConfig where
  | sequence (cfg : SequenceConfig)
  | count (cfg : CountConfig)
  | gate
  | compound
  deriving Repr, DecidableEq

/-- `GoalRule` (index.ts lines 22-31) restricted to the fields the evaluator
reads; `name`, `description`, `is_active`, `priority` only affect which rules
are fetched and in which order, which the model takes as given. -/
structure GoalRule where
  id : String
  rule_config : RuleConfig
  rolling_window_days : Nat
  required_completions : Nat
  deriving Repr, DecidableEq

/-- The four statuses of a `GoalEvaluation`. -/
inductive Status where
  | on_track
  | at_risk
  | off_track
  | completed
  deriving Repr, DecidableEq

def statusString : Status → String
  | .on_track => "on_track"
  | .at_risk => "at_risk"
  | .off_track => "off_track"
  | .completed => "completed"

/-- `PendingWindow` (index.ts lines 60-66), times in epoch milliseconds. -/
structure PendingWindow where
  event_a_name : String
  event_a_time : Int
  window_start : Int
  window_end : Int
  event_a_id : String
  deriving Repr, DecidableEq

inductive ImpactType where
  | window_created
  | window_completed
  | window_expired
  | gate_opened
  | gate_closed
  deriving Repr, DecidableEq

/-- The three `impact_details` object shapes built by the sequence evaluator. -/
inductive ImpactDetails where
  | completedDetails (triggered_by : String) (sequence : List String)
      (window_hours : String)
  | createdDetails (waiting_for : String) (window_end : Int)
  | expiredDetails (expected : String) (window_end : Int)
  deriving Repr, DecidableEq

/-- `DecisionImpact` (index.ts lines 81-86). -/
structure DecisionImpact where
  event_id : String
  goal_rule_id : String
  impact_type : ImpactType
  impact_details : ImpactDetails
  deriving Repr, DecidableEq

/-- The `Partial<GoalEvaluation>` an evaluator returns: exactly the fields it
sets; `none` models an absent (undefined) field. -/
structure EvalOutcome where
  status : Option Status := none
  completions_in_window : Option Nat := none
  pending_windows : Option (List PendingWindow) := none
  last_success_at : Option Int := none
  last_fail_at : Option Int := none
  last_fail_reason : Option String := none
  deriving Repr, DecidableEq

/-- The `{ evaluation, impacts }` pair each evaluator returns. -/
structure RuleResult where
  evaluation : EvalOutcome
  impacts : List DecisionImpact
  deriving Repr, DecidableEq

/-- `GoalEvaluation` (index.ts lines 68-79); `details` is always `{}` and is
omitted. -/
structure GoalEvaluation where
  goal_rule_id : String
  status : Status
  completions_in_window : Nat
  required_in_window : Nat
  pending_windows : List PendingWindow
  last_success_at : Option Int
  last_fail_at : Option Int
  last_fail_reason : Option String
  confidence : Rat
  deriving Repr, DecidableEq

/-- `toLowerCase()`: lowercase every character (kernel-computable form of
`String.toLower`). -/
def lowerString (s : String) : String := ⟨s.data.map Char.toLower⟩

/-- The event-pattern test shared by both evaluators (index.ts lines 121-123,
127-129, 246-247): the name comparison lowercases both sides, the type
comparison is exact, and a missing or empty (falsy) `type` matches anything. -/
def matchesPattern (p : EventPattern) (e : NormalizedEvent) : Bool :=
  lowerString e.event_name == lowerString p.name &&
    (match p.type with
     | none => true
     | some t => t == "" || e.event_type == t)

/-- Ascending `occurred_at` order, the comparator of every `.sort` call. -/
def timeLE (a b : NormalizedEvent) : Prop := a.occurred_at ≤ b.occurred_at

instance : DecidableRel timeLE := fun a b =>
  inferInstanceAs (Decidable (a.occurred_at ≤ b.occurred_at))

instance : IsTotal NormalizedEvent timeLE :=
  ⟨fun a b => Int.le_total a.occurred_at b.occurred_at⟩

instance : IsTrans NormalizedEvent timeLE :=
  ⟨fun _ _ _ h1 h2 => Int.le_trans h1 h2⟩

/-- Stable ascending sort by `occurred_at`, the meaning of
`.sort((a, b) => aTime - bTime)`. -/
def sortByTime (l : List NormalizedEvent) : List NormalizedEvent :=
  List.insertionSort timeLE l

/-- The per-rule rolling-window restriction of the sequence evaluator
(index.ts lines 115-118). -/
def seqWindowEvents (rule : GoalRule) (events : List NormalizedEvent)
    (now : Int) : List NormalizedEvent :=
  events.filter fun e =>
    decide (now - (rule.rolling_window_days : Int) * dayMs ≤ e.occurred_at)

/-- Select and time-sort one pattern's events (index.ts lines 121-130). -/
def patternEvents (p : EventPattern) (windowEvents : List NormalizedEvent) :
    List NormalizedEvent :=
  sortByTime (windowEvents.filter (matchesPattern p))

/-- The loop state of the sequence evaluator (index.ts lines 132-137); the
used-B set is a list of event ids, with only membership observed. -/
structure SeqState where
  completions : Nat
  lastSuccess : Option Int
  lastFail : Option Int
  lastFailReason : Option String
  pendingWindows : List PendingWindow
  usedBEvents : List String
  impacts : List DecisionImpact
  deriving Repr, DecidableEq

def seqInit : SeqState := ⟨0, none, none, none, [], [], []⟩

/-- The `last_fail_reason` message of an expired window (index.ts line 189). -/
def seqFailMsg (cfg : SequenceConfig) (eA eB : EventPattern) : String :=
  eB.name ++ " did not occur within " ++ toString cfg.min_hours ++ "-" ++
    toString cfg.max_hours ++ "h after " ++ eA.name

/-- The `${min}..${max}` window tag on a completed impact (index.ts 164). -/
def seqWindowHours (cfg : SequenceConfig) : String :=
  toString cfg.min_hours ++ ".." ++ toString cfg.max_hours

/-- One iteration of the A-event loop (index.ts lines 140-201). -/
def seqStep (rule : GoalRule) (cfg : SequenceConfig) (eA eB : EventPattern)
    (bEvents : List NormalizedEvent) (now : Int) (st : SeqState)
    (aEvent : NormalizedEvent) : SeqState :=
  let aTime := aEvent.occurred_at
  let windowStartTime := aTime + cfg.min_hours * hourMs
  let windowEndTime := aTime + cfg.max_hours * hourMs
  match bEvents.find? (fun b =>
      !(st.usedBEvents.contains b.id) &&
      decide (windowStartTime ≤ b.occurred_at) &&
      decide (b.occurred_at ≤ windowEndTime)) with
  | some matchingB =>
      { st with
        completions := st.completions + 1
        usedBEvents := st.usedBEvents ++ [matchingB.id]
        lastSuccess := some matchingB.occurred_at
        impacts := st.impacts ++ [{
          event_id := matchingB.id
          goal_rule_id := rule.id
          impact_type := .window_completed
          impact_details := .completedDetails aEvent.id [eA.name, eB.name]
            (seqWindowHours cfg) }] }
  | none =>
      if now < windowEndTime then
        { st with
          pendingWindows := st.pendingWindows ++ [{
            event_a_name := eA.name
            event_a_time := aTime
            window_start := windowStartTime
            window_end := windowEndTime
            event_a_id := aEvent.id }]
          impacts := st.impacts ++ [{
            event_id := aEvent.id
            goal_rule_id := rule.id
            impact_type := .window_created
            impact_details := .createdDetails eB.name windowEndTime }] }
      else
        { st with
          lastFail := some windowEndTime
          lastFailReason := some (seqFailMsg cfg eA eB)
          impacts := st.impacts ++ [{
            event_id := aEvent.id
            goal_rule_id := rule.id
            impact_type := .window_expired
            impact_details := .expiredDetails eB.name windowEndTime }] }

/-- Status derivation for a sequence rule (index.ts lines 203-218). -/
def seqDetermineStatus (rule : GoalRule) (completions : Nat)
    (pendingWindows : List PendingWindow) (now : Int) : Status :=
  if rule.required_completions ≤ completions then .completed
  else if 0 < pendingWindows.length then
    if pendingWindows.any (fun w => decide (w.window_end - now < hourMs)) then
      .at_risk
    else .on_track
  else if 0 < completions then .on_track
  else .off_track

/-- Body of the sequence evaluator once the rolling window has been applied
and the first two patterns extracted (index.ts lines 109-230). -/
def seqEvalCore (rule : GoalRule) (cfg : SequenceConfig) (eA eB : EventPattern)
    (windowEvents : List NormalizedEvent) (now : Int) : RuleResult :=
  let aEvents := patternEvents eA windowEvents
  let bEvents := patternEvents eB windowEvents
  let final := aEvents.foldl (seqStep rule cfg eA eB bEvents now) seqInit
  { evaluation := {
      status :=
        some (seqDetermineStatus rule final.completions final.pendingWindows now)
      completions_in_window := some final.completions
      pending_windows := some final.pendingWindows
      last_success_at := final.lastSuccess
      last_fail_at := final.lastFail
      last_fail_reason := final.lastFailReason }
    impacts := final.impacts }

/-- `evaluateSequenceRule` (index.ts lines 89-231). -/
def evaluateSequenceRule (rule : GoalRule) (cfg : SequenceConfig)
    (events : List NormalizedEvent) (now : Int) : RuleResult :=
  match cfg.events with
  | eA :: eB :: _ =>
      seqEvalCore rule cfg eA eB (seqWindowEvents rule events now) now
  | _ =>
      { evaluation := {
          status := some .off_track
          completions_in_window := some 0
          pending_windows := some []
          last_fail_reason := some "Sequence requires at least 2 events" }
        impacts := [] }

/-- `config.rolling_days || rule.rolling_window_days` (index.ts line 242). -/
def countEffectiveDays (rule : GoalRule) (cfg : CountConfig) : Nat :=
  if cfg.rolling_days ≠ 0 then cfg.rolling_days else rule.rolling_window_days

/-- `config.required_count || rule.required_completions` (index.ts 251). -/
def countRequired (rule : GoalRule) (cfg : CountConfig) : Nat :=
  if cfg.required_count ≠ 0 then cfg.required_count
  else rule.required_completions

/-- The combined window/pattern filter of the count evaluator
(index.ts lines 244-248). -/
def countMatching (rule : GoalRule) (cfg : CountConfig)
    (events : List NormalizedEvent) (now : Int) : List NormalizedEvent :=
  events.filter fun e =>
    decide (now - (countEffectiveDays rule cfg : Int) * dayMs ≤ e.occurred_at)
      && matchesPattern cfg.event_pattern e

/-- Threshold classification of the count evaluator (index.ts lines 253-262);
`7 * required ≤ 10 * count` is the exact form of `count >= required * 0.7`. -/
def countStatus (count required : Nat) : Status :=
  if required ≤ count then .completed
  else if 7 * required ≤ 10 * count then .on_track
  else if 3 * required ≤ 10 * count then .at_risk
  else .off_track

/-- `evaluateCountRule` (index.ts lines 234-273). -/
def evaluateCountRule (rule : GoalRule) (cfg : CountConfig)
    (events : List NormalizedEvent) (now : Int) : RuleResult :=
  let matchingEvents := countMatching rule cfg events now
  let count := matchingEvents.length
  { evaluation := {
      status := some (countStatus count (countRequired rule cfg))
      completions_in_window := some count
      pending_windows := some []
      last_success_at := (matchingEvents.getLast?).map (fun e => e.occurred_at) }
    impacts := [] }

/-- The `rule_type` discriminator string of a rule config. -/
def ruleTypeName : RuleConfig → String
  | .sequence _ => "sequence"
  | .count _ => "count"
  | .gate => "gate"
  | .compound => "compound"

/-- The per-rule dispatch of `evaluateAllGoals` (index.ts lines 317-334). -/
def dispatchRule (rule : GoalRule) (events : List NormalizedEvent)
    (now : Int) : RuleResult :=
  match rule.rule_config with
  | .sequence cfg => evaluateSequenceRule rule cfg events now
  | .count cfg => evaluateCountRule rule cfg events now
  | _ =>
      { evaluation := {
          status := some .off_track
          completions_in_window := some 0
          pending_windows := some []
          last_fail_reason :=
            some ("Unsupported rule type: " ++ ruleTypeName rule.rule_config) }
        impacts := [] }

/-- A persisted `goal_evaluations` row (index.ts lines 363-375). -/
structure StoredEvaluation where
  goal_rule_id : String
  evaluated_at : Int
  status : Status
  completions_in_window : Nat
  required_in_window : Nat
  pending_windows : List PendingWindow
  last_success_at : Option Int
  last_fail_at : Option Int
  last_fail_reason : Option String
  confidence : Rat
  deriving Repr, DecidableEq

/-- The external store as the orchestrator sees it: `rules` is the result of
the active-rules fetch (already filtered to `is_active` and ordered by
descending priority), `events` the full `normalized_events` history in the
ascending order the store returns it, and the last two lists the append-only
snapshot and impact tables. -/
structure DBState where
  rules : List GoalRule
  events : List NormalizedEvent
  goal_evaluations : List StoredEvaluation
  decision_impacts : List DecisionImpact
  deriving Repr, DecidableEq

/-- `r.rolling_window_days || 7` (index.ts line 297). -/
def defaultedWindowDays (r : GoalRule) : Nat :=
  if r.rolling_window_days ≠ 0 then r.rolling_window_days else 7

/-- `Math.max(...rules.map(r => r.rolling_window_days || 7))` over a
non-empty rule list (index.ts line 297). -/
def maxWindowDays (rules : List GoalRule) : Nat :=
  (rules.map defaultedWindowDays).foldl max 0

/-- The single event fetch of a pass: `occurred_at >= cutoff`, ascending
(index.ts lines 301-305). -/
def fetchEvents (events : List NormalizedEvent) (cutoff : Int) :
    List NormalizedEvent :=
  sortByTime (events.filter fun e => decide (cutoff ≤ e.occurred_at))

/-- `e.confidence || 1` (index.ts line 341). -/
def eventConfidence (e : NormalizedEvent) : Rat :=
  if e.confidence ≠ 0 then e.confidence else 1

/-- Average confidence of the events referenced by a rule's impacts
(index.ts lines 337-342). -/
def avgConfidence (events : List NormalizedEvent)
    (impacts : List DecisionImpact) : Rat :=
  let relevantEvents :=
    events.filter fun e => impacts.any fun i => i.event_id == e.id
  if 0 < relevantEvents.length then
    (relevantEvents.map eventConfidence).sum / (relevantEvents.length : Rat)
  else 1

/-- Assemble the full `GoalEvaluation` from an evaluator's partial result
(index.ts lines 344-355). -/
def assembleEvaluation (rule : GoalRule) (res : RuleResult)
    (events : List NormalizedEvent) : GoalEvaluation :=
  { goal_rule_id := rule.id
    status := res.evaluation.status.getD .off_track
    completions_in_window := res.evaluation.completions_in_window.getD 0
    required_in_window :=
      if rule.required_completions ≠ 0 then rule.required_completions else 1
    pending_windows := res.evaluation.pending_windows.getD []
    last_success_at := res.evaluation.last_success_at
    last_fail_at := res.evaluation.last_fail_at
    last_fail_reason := res.evaluation.last_fail_reason
    confidence := avgConfidence events res.impacts }

/-- The insert into `goal_evaluations` (index.ts lines 362-376). -/
def storeEvaluation (now : Int) (ev : GoalEvaluation) : StoredEvaluation :=
  { goal_rule_id := ev.goal_rule_id
    evaluated_at := now
    status := ev.status
    completions_in_window := ev.completions_in_window
    required_in_window := ev.required_in_window
    pending_windows := ev.pending_windows
    last_success_at := ev.last_success_at
    last_fail_at := ev.last_fail_at
    last_fail_reason := ev.last_fail_reason
    confidence := ev.confidence }

/-- What one `evaluateAllGoals` call returns together with the store it
leaves behind. -/
structure EvalPassResult where
  evaluations : List GoalEvaluation
  impacts : List DecisionImpact
  state : DBState
  deriving Repr, DecidableEq

/-- `evaluateAllGoals` (index.ts lines 276-392): one event fetch covering the
widest rolling window, per-rule dispatch, snapshot inserts, and impact
inserts restricted to the trigger event. -/
def evaluateAllGoals (s : DBState) (now : Int)
    (triggerEventId : Option String) : EvalPassResult :=
  if s.rules.length = 0 then ⟨[], [], s⟩
  else
    let maxDays := maxWindowDays s.rules
    let events := fetchEvents s.events (now - (maxDays : Int) * dayMs)
    let results := s.rules.map fun r => (r, dispatchRule r events now)
    let allEvaluations :=
      results.map fun p => assembleEvaluation p.1 p.2 events
    let allImpacts := results.foldl (fun acc p => acc ++ p.2.impacts) []
    let persistedImpacts :=
      match triggerEventId with
      | some tid => allImpacts.filter fun i => i.event_id == tid
      | none => []
    ⟨allEvaluations, allImpacts,
      { s with
        goal_evaluations :=
          s.goal_evaluations ++ allEvaluations.map (storeEvaluation now)
        decision_impacts := s.decision_impacts ++ persistedImpacts }⟩

/-- One entry of the what-if diff (index.ts lines 467-475). -/
structure WhatIfDiff where
  goal_id : String
  baseline_status : String
  simulated_status : String
  completions_delta : Int
  deriving Repr, DecidableEq

/-- What `simulateWhatIf` returns, with the store it leaves behind. -/
structure WhatIfResult where
  baseline : List GoalEvaluation
  simulated : List GoalEvaluation
  diff : List WhatIfDiff
  state : DBState
  deriving Repr, DecidableEq

/-- The inline dispatch of the simulation loop (index.ts lines 441-450); its
default branch, unlike the orchestrator's, sets no failure reason. -/
def dispatchRuleSim (rule : GoalRule) (events : List NormalizedEvent)
    (now : Int) : RuleResult :=
  match rule.rule_config with
  | .sequence cfg => evaluateSequenceRule rule cfg events now
  | .count cfg => evaluateCountRule rule cfg events now
  | _ =>
      { evaluation := {
          status := some .off_track
          completions_in_window := some 0
          pending_windows := some [] }
        impacts := [] }

/-- A simulated snapshot (index.ts lines 452-463): confidence fixed at 1. -/
def assembleSimEvaluation (rule : GoalRule) (res : RuleResult) :
    GoalEvaluation :=
  { goal_rule_id := rule.id
    status := res.evaluation.status.getD .off_track
    completions_in_window := res.evaluation.completions_in_window.getD 0
    required_in_window :=
      if rule.required_completions ≠ 0 then rule.required_completions else 1
    pending_windows := res.evaluation.pending_windows.getD []
    last_success_at := res.evaluation.last_success_at
    last_fail_at := res.evaluation.last_fail_at
    last_fail_reason := res.evaluation.last_fail_reason
    confidence := 1 }

/-- The synthetic id given to the i-th hypothetical event (index.ts 431). -/
def hypotheticalId (i : Nat) : String := "hypothetical-" ++ toString i

/-- `Math.max(...rules.map(r => r.rolling_window_days || 7), 7)`
(index.ts line 415). -/
def whatIfMaxDays (s : DBState) : Nat := max (maxWindowDays s.rules) 7

/-- The simulated event set (index.ts lines 418-434): the refetched real
events merged with the hypothetical events (given synthetic ids) and
re-sorted by `occurred_at`. -/
def whatIfSimulatedEvents (s : DBState) (now : Int)
    (hypotheticalEvents : List NormalizedEvent) : List NormalizedEvent :=
  sortByTime
    (fetchEvents s.events (now - (whatIfMaxDays s : Int) * dayMs) ++
      (hypotheticalEvents.enum.map fun p =>
        { p.2 with id := hypotheticalId p.1 }))

/-- The simulated snapshots (index.ts lines 437-464), never persisted. -/
def whatIfSimEvaluations (s : DBState) (now : Int)
    (hypotheticalEvents : List NormalizedEvent) : List GoalEvaluation :=
  s.rules.map fun r =>
    assembleSimEvaluation r
      (dispatchRuleSim r (whatIfSimulatedEvents s now hypotheticalEvents) now)

/-- One diff entry (index.ts lines 467-475). -/
def whatIfDiffEntry (baselineEvals : List GoalEvaluation)
    (sim : GoalEvaluation) : WhatIfDiff :=
  let baseline := baselineEvals.find? fun b =>
    b.goal_rule_id == sim.goal_rule_id
  { goal_id := sim.goal_rule_id
    baseline_status :=
      match baseline with
      | some b => statusString b.status
      | none => "unknown"
    simulated_status := statusString sim.status
    completions_delta := (sim.completions_in_window : Int) -
      (match baseline with
       | some b => (b.completions_in_window : Int)
       | none => 0) }

/-- `simulateWhatIf` (index.ts lines 395-482). The second rules fetch has no
explicit order; the model reuses the same fetched list. Hypothetical events
arrive without ids; the model takes full events and overwrites the id, as
the spread does. -/
def simulateWhatIf (s : DBState) (now : Int)
    (hypotheticalEvents : List NormalizedEvent) : WhatIfResult :=
  let baselineResult := evaluateAllGoals s now none
  ⟨baselineResult.evaluations,
    whatIfSimEvaluations s now hypotheticalEvents,
    (whatIfSimEvaluations s now hypotheticalEvents).map
      (whatIfDiffEntry baselineResult.evaluations),
    baselineResult.state⟩

/-! ### Helper lemmas -/

theorem init_le_foldl_max (l : List Nat) (init : Nat) :
    init ≤ l.foldl max init := by
  induction l generalizing init with
  | nil => exact Nat.le_refl _
  | cons x xs ih => exact Nat.le_trans (Nat.le_max_left init x) (ih (max init x))

theorem le_foldl_max_of_mem {l : List Nat} {a : Nat} (init : Nat) (h : a ∈ l) :
    a ≤ l.foldl max init := by
  induction l generalizing init with
  | nil => cases h
  | cons x xs ih =>
    rcases List.mem_cons.mp h with rfl | hmem
    · exact Nat.le_trans (Nat.le_max_right init a) (init_le_foldl_max xs _)
    · exact ih _ hmem

theorem rolling_le_defaulted (r : GoalRule) :
    r.rolling_window_days ≤ defaultedWindowDays r := by
  unfold defaultedWindowDays
  split
  · exact Nat.le_refl _
  · next h =>
    have : r.rolling_window_days = 0 := by omega
    omega

theorem defaulted_le_maxWindowDays {rules : List GoalRule} {r : GoalRule}
    (h : r ∈ rules) : defaultedWindowDays r ≤ maxWindowDays rules :=
  le_foldl_max_of_mem 0 (List.mem_map_of_mem defaultedWindowDays h)

theorem sorted_patternEvents (p : EventPattern) (l : List NormalizedEvent) :
    List.Sorted timeLE (patternEvents p l) :=
  List.sorted_insertionSort timeLE _

/-- The first match returned by `find?` on a time-sorted list has minimal
`occurred_at` among all matches. -/
theorem find?_occ_le_of_sorted {l : List NormalizedEvent}
    (hs : List.Pairwise timeLE l) {p : NormalizedEvent → Bool}
    {b : NormalizedEvent} (hf : l.find? p = some b) :
    ∀ b2 ∈ l, p b2 = true → b.occurred_at ≤ b2.occurred_at := by
  induction l with
  | nil => simp at hf
  | cons x xs ih =>
    rw [List.find?_cons] at hf
    rcases List.pairwise_cons.mp hs with ⟨hx, hxs⟩
    cases hpx : p x with
    | true =>
      rw [hpx] at hf
      have hbx : b = x := by cases hf; rfl
      subst hbx
      intro b2 hb2 hpb2
      rcases List.mem_cons.mp hb2 with rfl | hmem
      · exact Int.le_refl _
      · exact hx b2 hmem
    | false =>
      rw [hpx] at hf
      intro b2 hb2 hpb2
      rcases List.mem_cons.mp hb2 with rfl | hmem
      · rw [hpx] at hpb2; cases hpb2
      · exact ih hxs hf b2 hmem hpb2

/-- In a time-sorted list the last element has maximal `occurred_at`. -/
theorem getLast?_occ_max {l : List NormalizedEvent}
    (hs : List.Pairwise timeLE l) {b : NormalizedEvent}
    (hl : l.getLast? = some b) :
    ∀ e ∈ l, e.occurred_at ≤ b.occurred_at := by
  induction l with
  | nil => simp at hl
  | cons x xs ih =>
    rcases List.pairwise_cons.mp hs with ⟨hx, hxs⟩
    cases xs with
    | nil =>
      rw [List.getLast?_singleton] at hl
      cases hl
      intro e he
      rcases List.mem_cons.mp he with rfl | hmem
      · exact Int.le_refl _
      · cases hmem
    | cons y ys =>
      rw [List.getLast?_cons_cons] at hl
      intro e he
      rcases List.mem_cons.mp he with rfl | hmem
      · exact hx b (List.mem_of_getLast?_eq_some hl)
      · exact ih hxs hl e hmem

/-- The guard result of a sequence rule naming fewer than two events
(index.ts lines 97-107). -/
def seqGuardResult : RuleResult :=
  { evaluation := {
      status := some .off_track
      completions_in_window := some 0
      pending_windows := some []
      last_fail_reason := some "Sequence requires at least 2 events" }
    impacts := [] }

theorem evaluateSequenceRule_short (rule : GoalRule) (cfg : SequenceConfig)
    (events : List NormalizedEvent) (now : Int)
    (h : cfg.events.length < 2) :
    evaluateSequenceRule rule cfg events now = seqGuardResult := by
  obtain ⟨evts, mi, ma⟩ := cfg
  match evts, h with
  | [], _ => rfl
  | [a], _ => rfl
  | a :: b :: rest, h =>
    exfalso
    simp only [List.length_cons] at h
    omega

theorem evaluateSequenceRule_cons (rule : GoalRule) (cfg : SequenceConfig)
    (events : List NormalizedEvent) (now : Int)
    {eA eB : EventPattern} {rest : List EventPattern}
    (h : cfg.events = eA :: eB :: rest) :
    evaluateSequenceRule rule cfg events now =
      seqEvalCore rule cfg eA eB (seqWindowEvents rule events now) now := by
  obtain ⟨evts, mi, ma⟩ := cfg
  simp only at h
  subst h
  rfl

/-- Loop invariant of the A-event loop: every `window_completed` impact
carries the id of a consumed B event, and those ids are pairwise distinct. -/
def SeqInv (st : SeqState) : Prop :=
  (∀ i ∈ st.impacts, i.impact_type = ImpactType.window_completed →
      i.event_id ∈ st.usedBEvents) ∧
  (st.impacts.filter fun i =>
      i.impact_type == ImpactType.window_completed).Pairwise
    fun i j => i.event_id ≠ j.event_id

theorem seqInit_inv : SeqInv seqInit := by
  constructor
  · intro i hi
    simp [seqInit] at hi
  · simp [seqInit]

theorem seqInv_extend_completed {st1 st2 : SeqState} {bid : String}
    {imp : DecisionImpact} (h : SeqInv st1) (hid : bid ∉ st1.usedBEvents)
    (himp : st2.impacts = st1.impacts ++ [imp])
    (hused : st2.usedBEvents = st1.usedBEvents ++ [bid])
    (hty : imp.impact_type = ImpactType.window_completed)
    (hei : imp.event_id = bid) : SeqInv st2 := by
  obtain ⟨h1, h2⟩ := h
  constructor
  · intro i hi ht
    rw [himp] at hi
    rw [hused]
    rcases List.mem_append.mp hi with hold | hnew
    · exact List.mem_append_left _ (h1 i hold ht)
    · simp only [List.mem_singleton] at hnew
      subst hnew
      rw [hei]
      exact List.mem_append_right _ (List.mem_singleton.mpr rfl)
  · rw [himp, List.filter_append, List.pairwise_append]
    refine ⟨h2, ?_, ?_⟩
    · rw [List.filter_cons]
      split <;> simp
    · intro i hi j hj
      simp only [List.mem_filter, beq_iff_eq] at hi
      have hiused := h1 i hi.1 hi.2
      have hjeq : j = imp := by
        simp [List.filter_cons, hty] at hj
        exact hj
      subst hjeq
      rw [hei]
      intro heq
      rw [heq] at hiused
      exact hid hiused

theorem seqInv_append_noncompleted {st1 st2 : SeqState} {imp : DecisionImpact}
    (h : SeqInv st1) (himp : st2.impacts = st1.impacts ++ [imp])
    (hused : st2.usedBEvents = st1.usedBEvents)
    (hty : imp.impact_type ≠ ImpactType.window_completed) : SeqInv st2 := by
  obtain ⟨h1, h2⟩ := h
  constructor
  · intro i hi ht
    rw [himp] at hi
    rw [hused]
    rcases List.mem_append.mp hi with hold | hnew
    · exact h1 i hold ht
    · simp only [List.mem_singleton] at hnew
      subst hnew
      exact absurd ht hty
  · rw [himp, List.filter_append]
    have hnil : List.filter (fun i => i.impact_type == ImpactType.window_completed)
        [imp] = [] := by
      simp [List.filter_cons, hty]
    rw [hnil, List.append_nil]
    exact h2

theorem seqStep_inv (rule : GoalRule) (cfg : SequenceConfig)
    (eA eB : EventPattern) (bEvents : List NormalizedEvent) (now : Int)
    (st : SeqState) (a : NormalizedEvent) (h : SeqInv st) :
    SeqInv (seqStep rule cfg eA eB bEvents now st a) := by
  unfold seqStep
  dsimp only
  split
  next b hf =>
    have hpb := List.find?_some hf
    simp only [Bool.and_eq_true, Bool.not_eq_true', decide_eq_true_eq] at hpb
    refine seqInv_extend_completed h ?_ rfl rfl rfl rfl
    intro hmem
    have hc := hpb.1.1
    rw [List.contains, List.elem_eq_mem, decide_eq_false_iff_not] at hc
    exact hc hmem
  next hf =>
    split
    · exact seqInv_append_noncompleted h rfl rfl (by intro hc; cases hc)
    · exact seqInv_append_noncompleted h rfl rfl (by intro hc; cases hc)

theorem foldl_seqStep_inv (rule : GoalRule) (cfg : SequenceConfig)
    (eA eB : EventPattern) (bEvents : List NormalizedEvent) (now : Int)
    (l : List NormalizedEvent) (st : SeqState) (h : SeqInv st) :
    SeqInv (l.foldl (seqStep rule cfg eA eB bEvents now) st) := by
  induction l generalizing st with
  | nil => exact h
  | cons x xs ih =>
    exact ih _ (seqStep_inv rule cfg eA eB bEvents now st x h)

/-- C2: within one evaluation of a sequence rule, the `window_completed`
impacts carry pairwise distinct B-event ids — no B event is matched to two
A events. -/
theorem C2_no_double_matching (rule : GoalRule) (cfg : SequenceConfig)
    (events : List NormalizedEvent) (now : Int) :
    ((evaluateSequenceRule rule cfg events now).impacts.filter fun i =>
        i.impact_type == ImpactType.window_completed).Pairwise
      fun i j => i.event_id ≠ j.event_id := by
  obtain ⟨evts, mi, ma⟩ := cfg
  cases evts with
  | nil => simp [evaluateSequenceRule]
  | cons eA rest =>
    cases rest with
    | nil => simp [evaluateSequenceRule]
    | cons eB rest2 =>
      have hrw : evaluateSequenceRule rule ⟨eA :: eB :: rest2, mi, ma⟩
          events now = seqEvalCore rule ⟨eA :: eB :: rest2, mi, ma⟩ eA eB
            (seqWindowEvents rule events now) now :=
        evaluateSequenceRule_cons rule ⟨eA :: eB :: rest2, mi, ma⟩
          events now rfl
      rw [hrw]
      exact (foldl_seqStep_inv _ _ _ _ _ _ _ _ seqInit_inv).2

theorem lowerString_eq_empty {s : String} (h : lowerString s = "") : s = "" := by
  apply String.ext
  have hd := congrArg String.data h
  simp only [lowerString] at hd
  exact List.eq_nil_of_map_eq_nil hd

/-- C8: configuration errors are recovered per rule without aborting the
pass: a sequence rule naming fewer than two events evaluates to `off_track`
with the "Sequence requires at least 2 events" failure reason and no
impacts; a rule whose type is `gate` or `compound` evaluates to `off_track`
with an "Unsupported rule type" failure reason; and the pass still produces
one snapshot per rule, for every rule, in order. -/
theorem C8_config_errors_recovered :
    (∀ (rule : GoalRule) (cfg : SequenceConfig) (events : List NormalizedEvent)
        (now : Int), cfg.events.length < 2 →
        evaluateSequenceRule rule cfg events now = seqGuardResult ∧
        seqGuardResult.evaluation.status = some Status.off_track ∧
        seqGuardResult.evaluation.last_fail_reason =
          some ("Sequence " ++ "requires at least 2 events") ∧
        seqGuardResult.impacts = []) ∧
    (∀ (rule : GoalRule) (events : List NormalizedEvent) (now : Int),
        rule.rule_config = RuleConfig.gate ∨
          rule.rule_config = RuleConfig.compound →
        (dispatchRule rule events now).evaluation.status =
          some Status.off_track ∧
        (dispatchRule rule events now).evaluation.last_fail_reason =
          some ("Unsupported rule type: " ++ ruleTypeName rule.rule_config) ∧
        (dispatchRule rule events now).impacts = []) ∧
    (∀ (s : DBState) (now : Int) (t : Option String),
        (evaluateAllGoals s now t).evaluations.map (fun ev => ev.goal_rule_id) =
          s.rules.map fun r => r.id) := by
  refine ⟨?_, ?_, ?_⟩
  · intro rule cfg events now h
    exact ⟨evaluateSequenceRule_short rule cfg events now h, rfl, rfl, rfl⟩
  · intro rule events now h
    rcases h with h | h <;> simp [dispatchRule, h]
  · intro s now t
    unfold evaluateAllGoals
    split
    · next h =>
      rw [List.length_eq_zero.mp h]
      rfl
    · dsimp only
      rw [List.map_map, List.map_map]
      apply List.map_congr_left
      intro r hr
      rfl

/-- Witness for C8 at a one-pattern sequence config and a gate rule. -/
theorem C8_config_errors_recovered_witness :
    (evaluateSequenceRule
        { id := "w", rule_config := RuleConfig.gate, rolling_window_days := 7,
          required_completions := 1 }
        { events := [{ name := "A" }], min_hours := 0, max_hours := 1 } [] 0 =
        seqGuardResult ∧
      seqGuardResult.evaluation.status = some Status.off_track ∧
      seqGuardResult.evaluation.last_fail_reason =
        some ("Sequence " ++ "requires at least 2 events") ∧
      seqGuardResult.impacts = []) ∧
    ((dispatchRule
        { id := "w", rule_config := RuleConfig.gate, rolling_window_days := 7,
          required_completions := 1 } [] 0).evaluation.status =
        some Status.off_track ∧
      (dispatchRule
        { id := "w", rule_config := RuleConfig.gate, rolling_window_days := 7,
          required_completions := 1 } [] 0).evaluation.last_fail_reason =
        some ("Unsupported rule type: " ++ ruleTypeName RuleConfig.gate) ∧
      (dispatchRule
        { id := "w", rule_config := RuleConfig.gate, rolling_window_days := 7,
          required_completions := 1 } [] 0).impacts = []) :=
  ⟨C8_config_errors_recovered.1
      { id := "w", rule_config := RuleConfig.gate, rolling_window_days := 7,
        required_completions := 1 }
      { events := [{ name := "A" }], min_hours := 0, max_hours := 1 } [] 0
      (by decide),
    C8_config_errors_recovered.2.1
      { id := "w", rule_config := RuleConfig.gate, rolling_window_days := 7,
        required_completions := 1 } [] 0 (Or.inl rfl)⟩

/-- C10: the pattern test lowercases the event name on both sides but
compares the event type exactly: an event or pattern whose name differs only
in letter case matches identically, while a specified type differing only in
case (hence unequal) never matches. -/
theorem C10_name_case_insensitive_type_case_sensitive :
    (∀ (p : EventPattern) (e e2 : NormalizedEvent),
        lowerString e.event_name = lowerString e2.event_name →
        e.event_type = e2.event_type →
        matchesPattern p e = matchesPattern p e2) ∧
    (∀ (p p2 : EventPattern) (e : NormalizedEvent),
        lowerString p.name = lowerString p2.name → p.type = p2.type →
        matchesPattern p e = matchesPattern p2 e) ∧
    (∀ (p : EventPattern) (t : String) (e : NormalizedEvent),
        p.type = some t → lowerString t = lowerString e.event_type →
        t ≠ e.event_type → matchesPattern p e = false) := by
  refine ⟨?_, ?_, ?_⟩
  · intro p e e2 h1 h2
    simp [matchesPattern, h1, h2]
  · intro p p2 e h1 h2
    simp [matchesPattern, h1, h2]
  · intro p t e hp hlow hne
    by_cases ht : t = ""
    · exfalso
      subst ht
      have : e.event_type = "" := lowerString_eq_empty hlow.symm
      exact hne this.symm
    · have hne2 : e.event_type ≠ t := fun hc => hne hc.symm
      simp [matchesPattern, hp, ht, hne2]

/-- Witness for C10: "Sleep"/"SLEEP" names match identically; a "Cardio"
pattern type does not match a "cardio" event type. -/
theorem C10_name_case_insensitive_type_case_sensitive_witness :
    matchesPattern { name := "Sleep" }
        { id := "e1", event_type := "rest", event_name := "sleep",
          occurred_at := 0, confidence := 1 } =
      matchesPattern { name := "Sleep" }
        { id := "e1", event_type := "rest", event_name := "SLEEP",
          occurred_at := 0, confidence := 1 } ∧
    matchesPattern { name := "run", type := some "Cardio" }
        { id := "e2", event_type := "cardio", event_name := "run",
          occurred_at := 0, confidence := 1 } = false :=
  ⟨C10_name_case_insensitive_type_case_sensitive.1 { name := "Sleep" }
      { id := "e1", event_type := "rest", event_name := "sleep",
        occurred_at := 0, confidence := 1 }
      { id := "e1", event_type := "rest", event_name := "SLEEP",
        occurred_at := 0, confidence := 1 } (by decide) rfl,
    C10_name_case_insensitive_type_case_sensitive.2.2
      { name := "run", type := some "Cardio" } "Cardio"
      { id := "e2", event_type := "cardio", event_name := "run",
        occurred_at := 0, confidence := 1 } rfl (by decide) (by decide)⟩

/-- The claim's reading of the sequence status derivation: completed when
the requirement is met, else at_risk when some pending window has under an
hour left, else on_track when any pending window or completion exists. -/
def specSeqStatus (required completions : Nat)
    (pending : List PendingWindow) (now : Int) : Status :=
  if required ≤ completions then .completed
  else if pending.any fun w => decide (w.window_end - now < hourMs) then .at_risk
  else if 0 < pending.length ∨ 0 < completions then .on_track
  else .off_track

theorem seqDetermineStatus_eq_spec (rule : GoalRule) (c : Nat)
    (pending : List PendingWindow) (now : Int) :
    seqDetermineStatus rule c pending now =
      specSeqStatus rule.required_completions c pending now := by
  unfold seqDetermineStatus specSeqStatus
  by_cases h1 : rule.required_completions ≤ c
  · rw [if_pos h1, if_pos h1]
  · rw [if_neg h1, if_neg h1]
    cases pending with
    | nil => simp
    | cons w ws =>
      by_cases ha : (w :: ws).any fun w => decide (w.window_end - now < hourMs)
      · simp [ha]
      · simp [ha]

/-- Fixed sequence configuration used by the concrete status checks:
A followed by B within 1 to 2 hours, once within 7 days. -/
def cfgAB : SequenceConfig :=
  { events := [{ name := "A" }, { name := "B" }], min_hours := 1, max_hours := 2 }

def ruleAB : GoalRule :=
  { id := "r1", rule_config := RuleConfig.sequence cfgAB,
    rolling_window_days := 7, required_completions := 1 }

def sampleEvent (idStr : String) (t : Int) (nm : String) : NormalizedEvent :=
  { id := idStr, event_type := "act", event_name := nm, occurred_at := t,
    confidence := 1 }

/-- C3: a sequence evaluation's status is completed when completions reach
`required_completions`, else at_risk when some pending window has strictly
less than one hour before `window_end`, else on_track when a pending window
or a completion exists, else off_track; concretely, with no completions, a
lone pending window ending 45 minutes after now is at_risk while one ending
90 minutes after now is on_track. -/
theorem C3_sequence_status_classification :
    (∀ (rule : GoalRule) (cfg : SequenceConfig) (events : List NormalizedEvent)
        (now : Int) (eA eB : EventPattern) (rest : List EventPattern),
        cfg.events = eA :: eB :: rest →
        (evaluateSequenceRule rule cfg events now).evaluation.status =
          some (specSeqStatus rule.required_completions
            ((evaluateSequenceRule rule cfg events now
                ).evaluation.completions_in_window.getD 0)
            ((evaluateSequenceRule rule cfg events now
                ).evaluation.pending_windows.getD [])
            now)) ∧
    (evaluateSequenceRule ruleAB cfgAB
        [sampleEvent "a1" 355500000 "A"] 360000000).evaluation.status =
      some Status.at_risk ∧
    (evaluateSequenceRule ruleAB cfgAB
        [sampleEvent "a1" 358200000 "A"] 360000000).evaluation.status =
      some Status.on_track := by
  refine ⟨?_, by decide, by decide⟩
  intro rule cfg events now eA eB rest h
  rw [evaluateSequenceRule_cons rule cfg events now h]
  unfold seqEvalCore
  dsimp only [Option.getD_some]
  rw [seqDetermineStatus_eq_spec]

/-- Witness for C3 at the two-pattern configuration `cfgAB`. -/
theorem C3_sequence_status_classification_witness :
    (evaluateSequenceRule ruleAB cfgAB [] 0).evaluation.status =
      some (specSeqStatus ruleAB.required_completions
        ((evaluateSequenceRule ruleAB cfgAB []
            0).evaluation.completions_in_window.getD 0)
        ((evaluateSequenceRule ruleAB cfgAB [] 0).evaluation.pending_windows.getD
          [])
        0) :=
  C3_sequence_status_classification.1 ruleAB cfgAB [] 0
    { name := "A" } { name := "B" } [] rfl

/-- The claim's reading of the count thresholds, with the fractional factors
as exact rationals. -/
def specCountStatus (count required : Nat) : Status :=
  if (required : Rat) ≤ (count : Rat) then .completed
  else if (0.7 : Rat) * (required : Rat) ≤ (count : Rat) then .on_track
  else if (0.3 : Rat) * (required : Rat) ≤ (count : Rat) then .at_risk
  else .off_track

theorem rat_threshold_iff (num den count required : Nat) (hden : 0 < den) :
    ((num : Rat) / (den : Rat) * (required : Rat) ≤ (count : Rat)) ↔
      num * required ≤ den * count := by
  rw [div_mul_eq_mul_div, div_le_iff₀ (by exact_mod_cast hden)]
  rw [show (count : Rat) * (den : Rat) = ((den * count : Nat) : Rat) by
    push_cast; ring]
  rw [show (num : Rat) * (required : Rat) = ((num * required : Nat) : Rat) by
    push_cast; ring]
  exact Nat.cast_le

theorem countStatus_eq_spec (count required : Nat) :
    countStatus count required = specCountStatus count required := by
  have h7 : ((0.7 : Rat) * (required : Rat) ≤ (count : Rat)) ↔
      7 * required ≤ 10 * count := by
    rw [show (0.7 : Rat) = (7 : Nat) / (10 : Nat) by norm_num]
    exact rat_threshold_iff 7 10 count required (by omega)
  have h3 : ((0.3 : Rat) * (required : Rat) ≤ (count : Rat)) ↔
      3 * required ≤ 10 * count := by
    rw [show (0.3 : Rat) = (3 : Nat) / (10 : Nat) by norm_num]
    exact rat_threshold_iff 3 10 count required (by omega)
  unfold countStatus specCountStatus
  simp only [Nat.cast_le, h7, h3]

/-- What the claim asserts of one count-rule evaluation: the count is the
number of events matching the pattern inside the effective rolling window
(`config.rolling_days`, falling back to the rule's window), the status
follows the 0.7/0.3 thresholds against the effective required count, and
`last_success_at` is none exactly when nothing matches and otherwise is
some maximal matching `occurred_at` — the most recent matching event's
time. -/
def CountRuleSpec (rule : GoalRule) (cfg : CountConfig)
    (events : List NormalizedEvent) (now : Int) : Prop :=
  (evaluateCountRule rule cfg events now).evaluation.completions_in_window =
    some (countMatching rule cfg events now).length ∧
  countMatching rule cfg events now = events.filter (fun e =>
    decide (now - ((if cfg.rolling_days ≠ 0 then cfg.rolling_days
      else rule.rolling_window_days : Nat) : Int) * dayMs ≤ e.occurred_at) &&
    matchesPattern cfg.event_pattern e) ∧
  (evaluateCountRule rule cfg events now).evaluation.status =
    some (specCountStatus (countMatching rule cfg events now).length
      (if cfg.required_count ≠ 0 then cfg.required_count
       else rule.required_completions)) ∧
  (countMatching rule cfg events now = [] →
    (evaluateCountRule rule cfg events now).evaluation.last_success_at =
      none) ∧
  (∀ t : Int,
    (evaluateCountRule rule cfg events now).evaluation.last_success_at =
      some t →
    (∃ e ∈ countMatching rule cfg events now, e.occurred_at = t) ∧
    ∀ e ∈ countMatching rule cfg events now, e.occurred_at ≤ t) ∧
  (countMatching rule cfg events now ≠ [] →
    ∃ t : Int,
      (evaluateCountRule rule cfg events now).evaluation.last_success_at =
        some t ∧
      (∃ e ∈ countMatching rule cfg events now, e.occurred_at = t) ∧
      ∀ e ∈ countMatching rule cfg events now, e.occurred_at ≤ t)

/-- A count configuration requiring 10 "run" events in 7 days. -/
def cfgRun10 : CountConfig :=
  { event_pattern := { name := "run" }, required_count := 10,
    rolling_days := 7 }

def ruleRun10 : GoalRule :=
  { id := "r2", rule_config := RuleConfig.count cfgRun10,
    rolling_window_days := 7, required_completions := 1 }

/-- `k` "run" events, one second apart, starting at the epoch. -/
def runEvents (k : Nat) : List NormalizedEvent :=
  (List.range k).map fun i => sampleEvent ("e" ++ toString i)
    (Int.ofNat i * 1000) "run"

/-- C4: a count rule counts pattern matches inside
`config.rolling_days || rolling_window_days` days, takes the requirement
from `config.required_count || required_completions`, classifies by the
`>= required / >= 0.7*required / >= 0.3*required` thresholds, and reports
the most recent matching time as `last_success_at` (none without matches);
concretely with required 10, counts 10, 7, 4 and 2 give completed,
on_track, at_risk and off_track. -/
theorem C4_count_rule (rule : GoalRule) (cfg : CountConfig)
    (events : List NormalizedEvent) (now : Int)
    (hsorted : List.Pairwise timeLE events) :
    CountRuleSpec rule cfg events now ∧
    (evaluateCountRule ruleRun10 cfgRun10 (runEvents 10)
        360000000).evaluation.status = some Status.completed ∧
    (evaluateCountRule ruleRun10 cfgRun10 (runEvents 7)
        360000000).evaluation.status = some Status.on_track ∧
    (evaluateCountRule ruleRun10 cfgRun10 (runEvents 4)
        360000000).evaluation.status = some Status.at_risk ∧
    (evaluateCountRule ruleRun10 cfgRun10 (runEvents 2)
        360000000).evaluation.status = some Status.off_track := by
  refine ⟨⟨rfl, rfl, ?_, ?_, ?_, ?_⟩, by decide, by decide, by decide,
    by decide⟩
  · show some (countStatus _ (countRequired rule cfg)) = _
    rw [countStatus_eq_spec]
    rfl
  · intro h
    show ((countMatching rule cfg events now).getLast?).map _ = none
    rw [h]
    rfl
  · intro t ht
    have hmap : ∃ e, (countMatching rule cfg events now).getLast? = some e ∧
        e.occurred_at = t := by
      have ht2 : ((countMatching rule cfg events now).getLast?).map
          (fun e => e.occurred_at) = some t := ht
      cases hg : (countMatching rule cfg events now).getLast? with
      | none =>
        rw [hg] at ht2
        cases ht2
      | some e =>
        rw [hg] at ht2
        simp only [Option.map_some', Option.some.injEq] at ht2
        exact ⟨e, rfl, ht2⟩
    obtain ⟨e, hg, he⟩ := hmap
    have hpair : List.Pairwise timeLE (countMatching rule cfg events now) :=
      List.Pairwise.filter _ hsorted
    constructor
    · exact ⟨e, List.mem_of_getLast?_eq_some hg, he⟩
    · intro e2 he2
      rw [← he]
      exact getLast?_occ_max hpair hg e2 he2
  · intro hne
    cases hg : (countMatching rule cfg events now).getLast? with
    | none => exact absurd (List.getLast?_eq_none_iff.mp hg) hne
    | some e =>
      refine ⟨e.occurred_at, ?_,
        ⟨e, List.mem_of_getLast?_eq_some hg, rfl⟩, ?_⟩
      · show ((countMatching rule cfg events now).getLast?).map
            (fun e => e.occurred_at) = some e.occurred_at
        rw [hg]
        rfl
      · exact getLast?_occ_max (List.Pairwise.filter _ hsorted) hg

/-- Witness for C4 at three time-sorted "run" events. -/
theorem C4_count_rule_witness :
    CountRuleSpec ruleRun10 cfgRun10 (runEvents 3) 360000000 :=
  (C4_count_rule ruleRun10 cfgRun10 (runEvents 3) 360000000 (by decide)).1

/-- What the claim asserts of one iteration of the A-event loop against the
B-candidate list `bEvents`: if an unused B lies in the closed window
`[tA + min_hours, tA + max_hours]`, the earliest such B is consumed — the
completion count rises by one, `lastSuccess` becomes that B's time and a
`window_completed` impact tagged with the B's id is appended; otherwise a
window ending after `now` appends a pending entry and a `window_created`
impact tagged with the A's id, and a window ending at or before `now`
records the window end as the failure time with the
"&lt;B&gt; did not occur within &lt;min&gt;-&lt;max&gt;h after &lt;A&gt;" message and appends a
`window_expired` impact tagged with the A's id. -/
def SeqStepSpec (rule : GoalRule) (cfg : SequenceConfig) (eA eB : EventPattern)
    (bEvents : List NormalizedEvent) (now : Int) : Prop :=
  ∀ (st : SeqState) (a : NormalizedEvent),
    ((∃ b ∈ bEvents, b.id ∉ st.usedBEvents ∧
        a.occurred_at + cfg.min_hours * hourMs ≤ b.occurred_at ∧
        b.occurred_at ≤ a.occurred_at + cfg.max_hours * hourMs) →
      ∃ b ∈ bEvents,
        (b.id ∉ st.usedBEvents ∧
          a.occurred_at + cfg.min_hours * hourMs ≤ b.occurred_at ∧
          b.occurred_at ≤ a.occurred_at + cfg.max_hours * hourMs) ∧
        (∀ b2 ∈ bEvents, b2.id ∉ st.usedBEvents →
          a.occurred_at + cfg.min_hours * hourMs ≤ b2.occurred_at →
          b2.occurred_at ≤ a.occurred_at + cfg.max_hours * hourMs →
          b.occurred_at ≤ b2.occurred_at) ∧
        seqStep rule cfg eA eB bEvents now st a =
          { st with
            completions := st.completions + 1
            usedBEvents := st.usedBEvents ++ [b.id]
            lastSuccess := some b.occurred_at
            impacts := st.impacts ++ [{
              event_id := b.id
              goal_rule_id := rule.id
              impact_type := ImpactType.window_completed
              impact_details := ImpactDetails.completedDetails a.id
                [eA.name, eB.name] (seqWindowHours cfg) }] }) ∧
    ((¬ ∃ b ∈ bEvents, b.id ∉ st.usedBEvents ∧
        a.occurred_at + cfg.min_hours * hourMs ≤ b.occurred_at ∧
        b.occurred_at ≤ a.occurred_at + cfg.max_hours * hourMs) →
      (now < a.occurred_at + cfg.max_hours * hourMs →
        seqStep rule cfg eA eB bEvents now st a =
          { st with
            pendingWindows := st.pendingWindows ++ [{
              event_a_name := eA.name
              event_a_time := a.occurred_at
              window_start := a.occurred_at + cfg.min_hours * hourMs
              window_end := a.occurred_at + cfg.max_hours * hourMs
              event_a_id := a.id }]
            impacts := st.impacts ++ [{
              event_id := a.id
              goal_rule_id := rule.id
              impact_type := ImpactType.window_created
              impact_details := ImpactDetails.createdDetails eB.name
                (a.occurred_at + cfg.max_hours * hourMs) }] }) ∧
      (a.occurred_at + cfg.max_hours * hourMs ≤ now →
        seqStep rule cfg eA eB bEvents now st a =
          { st with
            lastFail := some (a.occurred_at + cfg.max_hours * hourMs)
            lastFailReason := some (seqFailMsg cfg eA eB)
            impacts := st.impacts ++ [{
              event_id := a.id
              goal_rule_id := rule.id
              impact_type := ImpactType.window_expired
              impact_details := ImpactDetails.expiredDetails eB.name
                (a.occurred_at + cfg.max_hours * hourMs) }] }))

theorem seqStepSpec_of_sorted (rule : GoalRule) (cfg : SequenceConfig)
    (eA eB : EventPattern) (bEvents : List NormalizedEvent) (now : Int)
    (hsorted : List.Pairwise timeLE bEvents) :
    SeqStepSpec rule cfg eA eB bEvents now := by
  intro st a
  have hpred : ∀ b : NormalizedEvent,
      ((!(st.usedBEvents.contains b.id) &&
        decide (a.occurred_at + cfg.min_hours * hourMs ≤ b.occurred_at) &&
        decide (b.occurred_at ≤ a.occurred_at + cfg.max_hours * hourMs))
          = true) ↔
      (b.id ∉ st.usedBEvents ∧
        a.occurred_at + cfg.min_hours * hourMs ≤ b.occurred_at ∧
        b.occurred_at ≤ a.occurred_at + cfg.max_hours * hourMs) := by
    intro b
    simp [List.contains, and_assoc]
  unfold seqStep
  dsimp only
  split
  next b hfind =>
    have hp0 := List.find?_some hfind
    have hb := (hpred b).mp hp0
    have hbmem := List.mem_of_find?_eq_some hfind
    constructor
    · intro _
      refine ⟨b, hbmem, hb, ?_, rfl⟩
      intro b2 hb2mem h1 h2 h3
      exact find?_occ_le_of_sorted hsorted hfind b2 hb2mem ((hpred b2).mpr ⟨h1, h2, h3⟩)
    · intro hno
      exact absurd ⟨b, hbmem, hb⟩ hno
  next hfind =>
    have hnone := List.find?_eq_none.mp hfind
    constructor
    · intro hex
      obtain ⟨b, hbmem, hb⟩ := hex
      exact absurd ((hpred b).mpr hb) (hnone b hbmem)
    · intro _
      constructor
      · intro hlt
        rw [if_pos hlt]
      · intro hle
        rw [if_neg (Int.not_lt.mpr hle)]

/-- C1: with at least two configured patterns, the sequence evaluator
processes A events in ascending time order over time-sorted candidate
lists, and each A event is assigned the earliest not-yet-used B event in
the closed window `[tA + min_hours, tA + max_hours]`; a match increments
completions, sets the last success to the B time and emits a
`window_completed` impact carrying the B id, a still-open window emits a
pending entry and a `window_created` impact carrying the A id, and an
expired window records `last_fail_at = tA + max_hours` with the
"did not occur within" message and emits a `window_expired` impact
carrying the A id. -/
theorem C1_sequence_first_fit_matching (rule : GoalRule)
    (cfg : SequenceConfig) (events : List NormalizedEvent) (now : Int)
    (eA eB : EventPattern) (rest : List EventPattern)
    (hcfg : cfg.events = eA :: eB :: rest) :
    List.Pairwise timeLE (patternEvents eA (seqWindowEvents rule events now)) ∧
    List.Pairwise timeLE (patternEvents eB (seqWindowEvents rule events now)) ∧
    SeqStepSpec rule cfg eA eB
      (patternEvents eB (seqWindowEvents rule events now)) now ∧
    evaluateSequenceRule rule cfg events now =
      seqEvalCore rule cfg eA eB (seqWindowEvents rule events now) now ∧
    (evaluateSequenceRule rule cfg events now).impacts =
      ((patternEvents eA (seqWindowEvents rule events now)).foldl
        (seqStep rule cfg eA eB
          (patternEvents eB (seqWindowEvents rule events now)) now)
        seqInit).impacts := by
  refine ⟨sorted_patternEvents eA _, sorted_patternEvents eB _,
    seqStepSpec_of_sorted rule cfg eA eB _ now (sorted_patternEvents eB _),
    evaluateSequenceRule_cons rule cfg events now hcfg, ?_⟩
  rw [evaluateSequenceRule_cons rule cfg events now hcfg]
  rfl

/-- Witness for C1 at the two-pattern configuration `cfgAB` and one A
event. -/
theorem C1_sequence_first_fit_matching_witness :
    List.Pairwise timeLE (patternEvents { name := "A" }
      (seqWindowEvents ruleAB [sampleEvent "a1" 355500000 "A"] 360000000)) ∧
    List.Pairwise timeLE (patternEvents { name := "B" }
      (seqWindowEvents ruleAB [sampleEvent "a1" 355500000 "A"] 360000000)) ∧
    SeqStepSpec ruleAB cfgAB { name := "A" } { name := "B" }
      (patternEvents { name := "B" }
        (seqWindowEvents ruleAB [sampleEvent "a1" 355500000 "A"] 360000000))
      360000000 ∧
    evaluateSequenceRule ruleAB cfgAB [sampleEvent "a1" 355500000 "A"]
        360000000 =
      seqEvalCore ruleAB cfgAB { name := "A" } { name := "B" }
        (seqWindowEvents ruleAB [sampleEvent "a1" 355500000 "A"] 360000000)
        360000000 ∧
    (evaluateSequenceRule ruleAB cfgAB [sampleEvent "a1" 355500000 "A"]
        360000000).impacts =
      ((patternEvents { name := "A" }
          (seqWindowEvents ruleAB [sampleEvent "a1" 355500000 "A"]
            360000000)).foldl
        (seqStep ruleAB cfgAB { name := "A" } { name := "B" }
          (patternEvents { name := "B" }
            (seqWindowEvents ruleAB [sampleEvent "a1" 355500000 "A"]
              360000000))
          360000000)
        seqInit).impacts :=
  C1_sequence_first_fit_matching ruleAB cfgAB
    [sampleEvent "a1" 355500000 "A"] 360000000
    { name := "A" } { name := "B" } [] rfl

/-- A count rule whose `config.rolling_days` (30) exceeds its
`rolling_window_days` (7), so the pass-wide fetch window undercovers it. -/
def cfgLongCount : CountConfig :=
  { event_pattern := { name := "run" }, required_count := 1,
    rolling_days := 30 }

def ruleLongCount : GoalRule :=
  { id := "r5", rule_config := RuleConfig.count cfgLongCount,
    rolling_window_days := 7, required_completions := 1 }

/-- A matching event 10 days before the epoch instant used as `now`. -/
def oldRunEvent : NormalizedEvent := sampleEvent "e9" (-864000000) "run"

/-- C5 counterexample: with the single active rule `ruleLongCount` the fetch
cutoff is 7 days, yet the count evaluator looks back `config.rolling_days`
= 30 days; an event 10 days old is invisible to the fetched set (status
off_track) but counted against the unrestricted history (status completed),
so the fetched set does not suffice. -/
theorem C5_counterexample_fetch_window :
    maxWindowDays [ruleLongCount] = 7 ∧
    fetchEvents [oldRunEvent]
      (0 - (maxWindowDays [ruleLongCount] : Int) * dayMs) = [] ∧
    (dispatchRule ruleLongCount
      (fetchEvents [oldRunEvent]
        (0 - (maxWindowDays [ruleLongCount] : Int) * dayMs))
      0).evaluation.status = some Status.off_track ∧
    (dispatchRule ruleLongCount [oldRunEvent] 0).evaluation.status =
      some Status.completed := by
  decide

theorem seqWindowEvents_filter (rule : GoalRule)
    (events : List NormalizedEvent) (now cutoff : Int)
    (hc : cutoff ≤ now - (rule.rolling_window_days : Int) * dayMs) :
    seqWindowEvents rule
        (events.filter fun e => decide (cutoff ≤ e.occurred_at)) now =
      seqWindowEvents rule events now := by
  unfold seqWindowEvents
  rw [List.filter_filter]
  apply List.filter_congr
  intro e _
  by_cases h : now - (rule.rolling_window_days : Int) * dayMs ≤ e.occurred_at
  · simp [h, Int.le_trans hc h]
  · simp [h]

theorem countMatching_filter (rule : GoalRule) (cfg : CountConfig)
    (events : List NormalizedEvent) (now cutoff : Int)
    (hc : cutoff ≤ now - (countEffectiveDays rule cfg : Int) * dayMs) :
    countMatching rule cfg
        (events.filter fun e => decide (cutoff ≤ e.occurred_at)) now =
      countMatching rule cfg events now := by
  unfold countMatching
  rw [List.filter_filter]
  apply List.filter_congr
  intro e _
  by_cases h : now - (countEffectiveDays rule cfg : Int) * dayMs ≤
      e.occurred_at
  · simp [h, Int.le_trans hc h]
  · simp [h]

theorem evaluateSequenceRule_filter (rule : GoalRule) (cfg : SequenceConfig)
    (events : List NormalizedEvent) (now cutoff : Int)
    (hc : cutoff ≤ now - (rule.rolling_window_days : Int) * dayMs) :
    evaluateSequenceRule rule cfg
        (events.filter fun e => decide (cutoff ≤ e.occurred_at)) now =
      evaluateSequenceRule rule cfg events now := by
  obtain ⟨evts, mi, ma⟩ := cfg
  cases evts with
  | nil => rfl
  | cons eA rest =>
    cases rest with
    | nil => rfl
    | cons eB rest2 =>
      show seqEvalCore _ _ _ _ (seqWindowEvents rule (events.filter _) now) _ =
        seqEvalCore _ _ _ _ (seqWindowEvents rule events now) _
      rw [seqWindowEvents_filter rule events now cutoff hc]

theorem evaluateCountRule_filter (rule : GoalRule) (cfg : CountConfig)
    (events : List NormalizedEvent) (now cutoff : Int)
    (hc : cutoff ≤ now - (countEffectiveDays rule cfg : Int) * dayMs) :
    evaluateCountRule rule cfg
        (events.filter fun e => decide (cutoff ≤ e.occurred_at)) now =
      evaluateCountRule rule cfg events now := by
  unfold evaluateCountRule
  rw [countMatching_filter rule cfg events now cutoff hc]

theorem cutoff_mono {d1 d2 : Nat} (h : d1 ≤ d2) (now : Int) :
    now - (d2 : Int) * dayMs ≤ now - (d1 : Int) * dayMs := by
  have hd : (0 : Int) ≤ dayMs := by decide
  have : (d1 : Int) * dayMs ≤ (d2 : Int) * dayMs :=
    mul_le_mul_of_nonneg_right (by exact_mod_cast h) hd
  omega

/-- C5 amended: the pass-wide fetch suffices for a rule provided the rule's
effective look-back window fits inside `maxWindowDays` — automatic for
sequence rules (whose look-back is `rolling_window_days`) and for count
rules only when `config.rolling_days || rolling_window_days` does not
exceed the widest `rolling_window_days || 7`; under that proviso,
dispatching the rule on the fetched, time-sorted restriction of a sorted
history equals dispatching it on the full history. -/
theorem C5_amended_fetch_window_suffices (rules : List GoalRule)
    (events : List NormalizedEvent) (now : Int) (rule : GoalRule)
    (hmem : rule ∈ rules) (hsorted : List.Pairwise timeLE events)
    (hcount : ∀ cfg : CountConfig, rule.rule_config = RuleConfig.count cfg →
      countEffectiveDays rule cfg ≤ maxWindowDays rules) :
    dispatchRule rule
        (fetchEvents events (now - (maxWindowDays rules : Int) * dayMs))
        now =
      dispatchRule rule events now := by
  have hfetch : fetchEvents events (now - (maxWindowDays rules : Int) * dayMs)
      = events.filter fun e =>
          decide (now - (maxWindowDays rules : Int) * dayMs ≤ e.occurred_at) := by
    unfold fetchEvents sortByTime
    exact List.Sorted.insertionSort_eq (List.Pairwise.filter _ hsorted)
  rw [hfetch]
  have hrwd : rule.rolling_window_days ≤ maxWindowDays rules :=
    Nat.le_trans (rolling_le_defaulted rule) (defaulted_le_maxWindowDays hmem)
  unfold dispatchRule
  cases hrc : rule.rule_config with
  | sequence cfg =>
    exact evaluateSequenceRule_filter rule cfg events now _
      (cutoff_mono hrwd now)
  | count cfg =>
    exact evaluateCountRule_filter rule cfg events now _
      (cutoff_mono (hcount cfg hrc) now)
  | gate => rfl
  | compound => rfl

/-- Witness for the amended C5 at the single count rule `ruleRun10` and one
in-window event. -/
theorem C5_amended_fetch_window_suffices_witness :
    dispatchRule ruleRun10
        (fetchEvents [sampleEvent "e1" 1000 "run"]
          (360000000 - (maxWindowDays [ruleRun10] : Int) * dayMs))
        360000000 =
      dispatchRule ruleRun10 [sampleEvent "e1" 1000 "run"] 360000000 :=
  C5_amended_fetch_window_suffices [ruleRun10] [sampleEvent "e1" 1000 "run"]
    360000000 ruleRun10 (List.mem_singleton.mpr rfl) (by decide)
    (by
      intro cfg h
      have h2 : RuleConfig.count cfgRun10 = RuleConfig.count cfg := h
      injection h2 with h3
      rw [← h3]
      decide)

/-- C7: impact persistence is scoped to the trigger event: with a
`trigger_event_id` exactly the computed impacts whose `event_id` equals the
trigger are appended to the impact store, with no trigger nothing is
appended, and in both cases the full per-rule impact list is still computed
and returned to the caller. -/
theorem C7_trigger_scoped_impact_persistence (s : DBState) (now : Int) :
    (∀ tid : String,
        (evaluateAllGoals s now (some tid)).state.decision_impacts =
          s.decision_impacts ++
            (evaluateAllGoals s now (some tid)).impacts.filter
              fun i => i.event_id == tid) ∧
    (evaluateAllGoals s now none).state.decision_impacts =
      s.decision_impacts ∧
    (∀ tid : Option String,
        (evaluateAllGoals s now tid).impacts =
          s.rules.foldl
            (fun acc r => acc ++
              (dispatchRule r
                (fetchEvents s.events
                  (now - (maxWindowDays s.rules : Int) * dayMs)) now).impacts)
            []) := by
  refine ⟨?_, ?_, ?_⟩
  · intro tid
    unfold evaluateAllGoals
    split
    · simp
    · rfl
  · unfold evaluateAllGoals
    split
    · rfl
    · dsimp only
      rw [List.append_nil]
  · intro tid
    unfold evaluateAllGoals
    split
    · next h =>
      rw [List.length_eq_zero.mp h]
      rfl
    · dsimp only
      rw [List.foldl_map]

/-- Evaluations and returned impacts depend only on the fetched rules and
events, not on the snapshot/impact stores or the trigger id. -/
theorem evaluateAllGoals_congr {s1 s2 : DBState} (now : Int)
    (ta tb : Option String) (hr : s1.rules = s2.rules)
    (he : s1.events = s2.events) :
    (evaluateAllGoals s1 now ta).evaluations =
      (evaluateAllGoals s2 now tb).evaluations ∧
    (evaluateAllGoals s1 now ta).impacts =
      (evaluateAllGoals s2 now tb).impacts := by
  unfold evaluateAllGoals
  rw [hr, he]
  by_cases h : s2.rules.length = 0
  · rw [if_pos h, if_pos h]
    exact ⟨rfl, rfl⟩
  · rw [if_neg h, if_neg h]
    exact ⟨rfl, rfl⟩

/-- C9: rule evaluation is a pure function of (rules, events, now): running
a second pass at the same instant on the store the first pass left behind
reproduces the first pass's snapshots and impacts exactly, whatever the
trigger ids. -/
theorem C9_evaluation_idempotent (s : DBState) (now : Int)
    (t1 t2 : Option String) :
    (evaluateAllGoals (evaluateAllGoals s now t1).state now t2).evaluations =
      (evaluateAllGoals s now t1).evaluations ∧
    (evaluateAllGoals (evaluateAllGoals s now t1).state now t2).impacts =
      (evaluateAllGoals s now t1).impacts := by
  have hr : (evaluateAllGoals s now t1).state.rules = s.rules := by
    unfold evaluateAllGoals
    split <;> rfl
  have he : (evaluateAllGoals s now t1).state.events = s.events := by
    unfold evaluateAllGoals
    split <;> rfl
  exact evaluateAllGoals_congr now t2 t1 hr he

/-- With pairwise-distinct rule ids, looking a rule's id up in a per-rule
evaluation list finds exactly that rule's entry. -/
theorem find?_map_of_nodup {F : GoalRule → GoalEvaluation}
    (hF : ∀ r, (F r).goal_rule_id = r.id) :
    ∀ (rules : List GoalRule), (rules.map fun r => r.id).Nodup →
    ∀ r0 ∈ rules,
    (rules.map F).find? (fun b => b.goal_rule_id == r0.id) = some (F r0) := by
  intro rules
  induction rules with
  | nil =>
    intro _ r0 h0
    cases h0
  | cons r rs ih =>
    intro hnd r0 h0
    simp only [List.map_cons] at hnd
    rcases List.nodup_cons.mp hnd with ⟨hnotin, hnd2⟩
    rcases List.mem_cons.mp h0 with rfl | hmem
    · rw [List.map_cons, List.find?_cons]
      have : ((F r0).goal_rule_id == r0.id) = true := by
        rw [hF r0]
        exact beq_self_eq_true r0.id
      rw [this]
    · rw [List.map_cons, List.find?_cons]
      have hne : ((F r).goal_rule_id == r0.id) = false := by
        rw [hF r]
        apply beq_eq_false_iff_ne.mpr
        intro hc
        exact hnotin (hc ▸ List.mem_map_of_mem (fun r => r.id) hmem)
      rw [hne]
      exact ih hnd2 r0 hmem

theorem evaluateAllGoals_evaluations (s : DBState) (now : Int)
    (t : Option String) (h : s.rules.length ≠ 0) :
    (evaluateAllGoals s now t).evaluations =
      s.rules.map fun r =>
        assembleEvaluation r
          (dispatchRule r
            (fetchEvents s.events
              (now - (maxWindowDays s.rules : Int) * dayMs)) now)
          (fetchEvents s.events
            (now - (maxWindowDays s.rules : Int) * dayMs)) := by
  unfold evaluateAllGoals
  rw [if_neg h]
  dsimp only
  rw [List.map_map]
  rfl

theorem whatIfDiffEntry_found (baselineEvals : List GoalEvaluation)
    (sim bev : GoalEvaluation)
    (hf : baselineEvals.find? (fun b => b.goal_rule_id == sim.goal_rule_id) =
      some bev) :
    whatIfDiffEntry baselineEvals sim =
      { goal_id := sim.goal_rule_id
        baseline_status := statusString bev.status
        simulated_status := statusString sim.status
        completions_delta := (sim.completions_in_window : Int) -
          (bev.completions_in_window : Int) } := by
  unfold whatIfDiffEntry
  rw [hf]

/-- What the claim asserts of the per-rule diff: entry i belongs to rule i
and relates that rule's baseline and simulated snapshots, with
`completions_delta` their completion difference. -/
def WhatIfDiffSpec (s : DBState) (now : Int)
    (hyp : List NormalizedEvent) : Prop :=
  ∀ (i : Nat) (hi : i < s.rules.length),
    ∃ (d : WhatIfDiff) (bev sev : GoalEvaluation),
      (simulateWhatIf s now hyp).diff[i]? = some d ∧
      (evaluateAllGoals s now none).evaluations[i]? = some bev ∧
      (simulateWhatIf s now hyp).simulated[i]? = some sev ∧
      d.goal_id = s.rules[i].id ∧
      bev.goal_rule_id = d.goal_id ∧
      sev.goal_rule_id = d.goal_id ∧
      d.baseline_status = statusString bev.status ∧
      d.simulated_status = statusString sev.status ∧
      d.completions_delta = (sev.completions_in_window : Int) -
        (bev.completions_in_window : Int)

/-- C6: a what-if run persists exactly what a plain evaluate call persists
(the baseline pass), returns those baseline snapshots, never stores the
simulated snapshots (the store it leaves behind is the baseline store), and
its diff pairs each rule's baseline and simulated snapshots with
`completions_delta` equal to simulated minus baseline completions. -/
theorem C6_whatif_baseline_persisted_simulation_not (s : DBState) (now : Int)
    (hyp : List NormalizedEvent) (_hne : hyp ≠ [])
    (hnodup : (s.rules.map fun r => r.id).Nodup) :
    (simulateWhatIf s now hyp).state = (evaluateAllGoals s now none).state ∧
    (simulateWhatIf s now hyp).baseline =
      (evaluateAllGoals s now none).evaluations ∧
    (simulateWhatIf s now hyp).diff.length = s.rules.length ∧
    WhatIfDiffSpec s now hyp := by
  refine ⟨rfl, rfl, ?_, ?_⟩
  · show ((whatIfSimEvaluations s now hyp).map _).length = _
    rw [List.length_map]
    unfold whatIfSimEvaluations
    rw [List.length_map]
  · intro i hi
    have hlen : s.rules.length ≠ 0 := by omega
    have hbase := evaluateAllGoals_evaluations s now none hlen
    set baseF : GoalRule → GoalEvaluation := fun r =>
      assembleEvaluation r
        (dispatchRule r
          (fetchEvents s.events
            (now - (maxWindowDays s.rules : Int) * dayMs)) now)
        (fetchEvents s.events
          (now - (maxWindowDays s.rules : Int) * dayMs)) with hbaseF
    set simF : GoalRule → GoalEvaluation := fun r =>
      assembleSimEvaluation r
        (dispatchRuleSim r (whatIfSimulatedEvents s now hyp) now) with hsimF
    have hsim : (simulateWhatIf s now hyp).simulated = s.rules.map simF := rfl
    have hdiff : (simulateWhatIf s now hyp).diff =
        (s.rules.map simF).map
          (whatIfDiffEntry ((evaluateAllGoals s now none).evaluations)) := rfl
    have hFb : ∀ r, (baseF r).goal_rule_id = r.id := fun _ => rfl
    have hfind : ((s.rules.map baseF).find?
        (fun b => b.goal_rule_id == (simF s.rules[i]).goal_rule_id)) =
        some (baseF s.rules[i]) := by
      have : (simF s.rules[i]).goal_rule_id = s.rules[i].id := rfl
      rw [this]
      exact find?_map_of_nodup hFb s.rules hnodup s.rules[i]
        (List.getElem_mem hi)
    refine ⟨whatIfDiffEntry ((evaluateAllGoals s now none).evaluations)
        (simF s.rules[i]), baseF s.rules[i], simF s.rules[i],
      ?_, ?_, ?_, ?_, ?_, ?_, ?_, ?_, ?_⟩
    · rw [hdiff, List.getElem?_map, List.getElem?_map,
        List.getElem?_eq_getElem hi]
      rfl
    · rw [hbase, List.getElem?_map, List.getElem?_eq_getElem hi]
      rfl
    · rw [hsim, List.getElem?_map, List.getElem?_eq_getElem hi]
      rfl
    · rw [whatIfDiffEntry_found _ _ _ (hbase ▸ hfind)]
      rfl
    · rw [whatIfDiffEntry_found _ _ _ (hbase ▸ hfind)]
      rfl
    · rw [whatIfDiffEntry_found _ _ _ (hbase ▸ hfind)]
    · rw [whatIfDiffEntry_found _ _ _ (hbase ▸ hfind)]
    · rw [whatIfDiffEntry_found _ _ _ (hbase ▸ hfind)]
    · rw [whatIfDiffEntry_found _ _ _ (hbase ▸ hfind)]

/-- A one-rule store with a completed A-B pair, for concrete what-if runs. -/
def dbAB : DBState :=
  { rules := [ruleAB]
    events := [sampleEvent "a1" 100000000 "A", sampleEvent "b1" 105400000 "B"]
    goal_evaluations := []
    decision_impacts := [] }

/-- Witness for C6 at the one-rule store `dbAB` and one hypothetical A. -/
theorem C6_whatif_baseline_persisted_simulation_not_witness :
    (simulateWhatIf dbAB 360000000 [sampleEvent "h1" 200000000 "A"]).state =
      (evaluateAllGoals dbAB 360000000 none).state ∧
    (simulateWhatIf dbAB 360000000
        [sampleEvent "h1" 200000000 "A"]).baseline =
      (evaluateAllGoals dbAB 360000000 none).evaluations ∧
    (simulateWhatIf dbAB 360000000
        [sampleEvent "h1" 200000000 "A"]).diff.length = dbAB.rules.length ∧
    WhatIfDiffSpec dbAB 360000000 [sampleEvent "h1" 200000000 "A"] :=
  C6_whatif_baseline_persisted_simulation_not dbAB 360000000
    [sampleEvent "h1" 200000000 "A"] (by decide) (by decide)

end GoalEval
